import Mathlib

/-!
Shallow embedding of the StudyWell FCM reminder server
(`src/server/index.js` and the duplicated draft `src/index.js`).

Time is modelled as milliseconds since the Unix epoch (`Nat`); the host
timezone of the deployed server is taken to be UTC, so the draft's
local-time `Date` methods (`getDay`, `setHours`) coincide with the UTC
ones.  The Firestore collection `scheduled_notifications` is modelled as
an association list from document id to document.
-/

/-!  Definitions: time model, data model, and pipeline operations. -/

def msPerMinute : Nat := 60000

def msPerHour : Nat := 3600000

def msPerDay : Nat := 86400000

/-- JS `Date.prototype.getUTCDay`: 0 = Sunday .. 6 = Saturday.
1970-01-01 (epoch day 0) was a Thursday (= 4). -/
def jsGetUTCDay (t : Nat) : Nat := (t / msPerDay + 4) % 7

/-- Midnight (UTC) of the day containing `t`. -/
def startOfUTCDay (t : Nat) : Nat := t / msPerDay * msPerDay

/-- JS `d.setUTCHours(hour, minute, 0, 0)` applied to a date holding `t`. -/
def setUTCTime (t hour minute : Nat) : Nat :=
  startOfUTCDay t + hour * msPerHour + minute * msPerMinute

/-- UTC hour component of an instant. -/
def jsUTCHourOf (t : Nat) : Nat := t % msPerDay / msPerHour

/-- UTC minute component of an instant. -/
def jsUTCMinuteOf (t : Nat) : Nat := t % msPerHour / msPerMinute

/-- `getNextScheduledDate` from `src/server/index.js` (lines 254-293).
The source computes `const utcHour = (hour - 8 + 24) % 24`; the summands
are reordered as `hour + 24 - 8` so that truncated `Nat` subtraction
agrees with the JS value for every `hour ≥ 0`.  Likewise
`(dayOfWeek - currentDayOfWeek + 7) % 7` is written
`(dayOfWeek + 7 - currentDayOfWeek) % 7`, equal in JS because
`currentDayOfWeek ≤ 7`. -/
def getNextScheduledDate (now dayOfWeek hour minute weekOffset : Nat) : Nat :=
  let currentDayOfWeek := if jsGetUTCDay now = 0 then 7 else jsGetUTCDay now
  let utcHour := (hour + 24 - 8) % 24
  let targetDate := setUTCTime now utcHour minute
  if currentDayOfWeek = dayOfWeek then
    if now < targetDate then
      targetDate + weekOffset * 7 * msPerDay
    else
      targetDate + (7 + weekOffset * 7) * msPerDay
  else
    let daysUntilTarget0 := (dayOfWeek + 7 - currentDayOfWeek) % 7
    let daysUntilTarget := if daysUntilTarget0 = 0 then 7 else daysUntilTarget0
    targetDate + (daysUntilTarget + weekOffset * 7) * msPerDay

/-- `getNextScheduledDate` from the draft `src/index.js` (lines 161-185).
It uses the host-local `setHours`/`getDay`, modelled here under the
host-is-UTC assumption; no timezone conversion is applied to `hour`. -/
def getNextScheduledDateRoot (now dayOfWeek hour minute weekOffset : Nat) : Nat :=
  let currentDayOfWeek := if jsGetUTCDay now = 0 then 7 else jsGetUTCDay now
  let targetTimeToday := setUTCTime now hour minute
  if currentDayOfWeek = dayOfWeek then
    if now < targetTimeToday then
      targetTimeToday + weekOffset * 7 * msPerDay
    else
      setUTCTime (now + (7 + weekOffset * 7) * msPerDay) hour minute
  else
    let daysUntilTarget0 := (dayOfWeek + 7 - currentDayOfWeek) % 7
    let daysUntilTarget := if daysUntilTarget0 = 0 then 7 else daysUntilTarget0
    setUTCTime (now + (daysUntilTarget + weekOffset * 7) * msPerDay) hour minute

/-- Following the spec's words (step 1 of the Recurrence Resolver):
`utcHour = (hour − offsetHours + 24) mod 24`, the conversion the claims
say is applied using the config's stored timezone offset. -/
def specUtcHour (hour offsetHours : Int) : Int := (hour - offsetHours + 24) % 24

/-!  Data model: preference documents and scheduled-notification documents. -/

/-- A `notification_preferences` document as read by the server.  `Option`
models a possibly absent (JS `undefined`) field; the JS `||` defaulting
additionally treats `0` and `""` as absent (falsy). -/
structure Prefs where
  studyReminderHour : Option Nat
  studyReminderMinute : Option Nat
  studyReminderFrequency : Option String
  studyReminderDays : Option (List Nat)
  customMessage : Option String
  fcmToken : Option String
  studyRemindersEnabled : Bool
  timezoneOffset : Option Int
deriving Repr, DecidableEq

/-- JS `x || d` for a numeric field: `undefined` and `0` both fall back. -/
def jsOrNat (x : Option Nat) (d : Nat) : Nat :=
  match x with
  | none => d
  | some v => if v = 0 then d else v

/-- JS `x || d` for a string field: `undefined` and `""` both fall back. -/
def jsOrStr (x : Option String) (d : String) : String :=
  match x with
  | none => d
  | some s => if s = "" then d else s

/-- JS truthiness of `fcmToken` (`undefined` and `""` are falsy). -/
def jsTruthyTok (x : Option String) : Bool :=
  match x with
  | none => false
  | some s => s ≠ ""

/-- A `scheduled_notifications` document (the fields written by
`scheduleStudyReminders`, `sendFCMNotification` and read by the pollers). -/
structure NotificationDoc where
  userId : String
  fcmToken : String
  scheduledFor : Nat
  hour : Nat
  minute : Nat
  dayOfWeek : Nat
  week : Nat
  title : String
  message : String
  type : String
  sent : Bool
  sentAt : Option Nat
  messageId : Option String
  error : Option String
  createdAt : Nat
deriving Repr, DecidableEq

/-- The `scheduled_notifications` collection: document id ↦ document. -/
abbrev Store : Type := List (String × NotificationDoc)

/-- Firestore `.doc(id).set(d)`: upsert, overwriting a document that
already exists under the deterministic id. -/
def setDoc : Store → String → NotificationDoc → Store
  | [], id, d => [(id, d)]
  | e :: rest, id, d => if e.1 = id then (id, d) :: rest else e :: setDoc rest id d

/-- Reading the document stored under `id`. -/
def lookup : Store → String → Option NotificationDoc
  | [], _ => none
  | e :: rest, id => if e.1 = id then some e.2 else lookup rest id

/-- Firestore `.doc(id).update(...)`: merge new field values into the
document(s) stored under `id`. -/
def updateDoc (st : Store) (id : String) (f : NotificationDoc → NotificationDoc) : Store :=
  st.map (fun e => if e.1 = id then (e.1, f e.2) else e)

/-- The document ids written by the scheduler:
`` `study_${userId}_${dayOfWeek}_${week}` ``. -/
def notifId (userId : String) (dayOfWeek week : Nat) : String :=
  "study_" ++ userId ++ "_" ++ toString dayOfWeek ++ "_" ++ toString week

/-- Flutter day numbers (0=Sunday..6=Saturday) to server numbers
(1=Monday..7=Sunday), `src/server/index.js` lines 160-163. -/
def convertDayFormat (day : Nat) : Nat := if day = 0 then 7 else day

/-- The `daysToSchedule` switch of `scheduleStudyReminders`
(`src/server/index.js` lines 165-181). -/
def daysToSchedule (frequency : String) (customDays : List Nat) : List Nat :=
  if frequency = "daily" then [1, 2, 3, 4, 5, 6, 7]
  else if frequency = "weekly" then [1, 2, 3, 4, 5]
  else if frequency = "custom" then
    if customDays.length > 0 then customDays.map convertDayFormat else [1, 2, 3, 4, 5]
  else [1, 2, 3, 4, 5, 6, 7]

/-- The document body written by `scheduleStudyReminders` for one
occurrence (`src/server/index.js` lines 216-229); `createdAt` records the
Firestore server timestamp, identified with `now`. -/
def mkDoc (userId fcmToken : String) (scheduledFor hour minute dayOfWeek week : Nat)
    (message : String) (createdAt : Nat) : NotificationDoc :=
  { userId := userId, fcmToken := fcmToken, scheduledFor := scheduledFor,
    hour := hour, minute := minute, dayOfWeek := dayOfWeek, week := week,
    title := "Study Time! 📚", message := message, type := "study_reminder",
    sent := false, sentAt := none, messageId := none, error := none,
    createdAt := createdAt }

/-- `scheduleStudyReminders` (`src/server/index.js` lines 141-249) as a
pure transformation of the collection: for each week in `0..7` and each
day to schedule, compute the candidate instant, skip it when
`scheduledDate <= now`, otherwise `.set` the document under its
deterministic id. -/
def scheduleStudyReminders (now : Nat) (userId : String) (p : Prefs) (st : Store) : Store :=
  let hour := jsOrNat p.studyReminderHour 9
  let minute := jsOrNat p.studyReminderMinute 0
  let frequency := jsOrStr p.studyReminderFrequency "daily"
  let customDays := p.studyReminderDays.getD []
  let message := jsOrStr p.customMessage "Time to focus on your studies."
  match p.fcmToken with
  | none => st
  | some token =>
    if token = "" then st
    else
      let days := daysToSchedule frequency customDays
      (List.range 8).foldl (fun st1 week =>
        days.foldl (fun st2 dayOfWeek =>
          let scheduledDate := getNextScheduledDate now dayOfWeek hour minute week
          if scheduledDate ≤ now then st2
          else
            setDoc st2 (notifId userId dayOfWeek week)
              (mkDoc userId token scheduledDate hour minute dayOfWeek week message now))
          st1) st

/-- `cancelAllScheduledNotifications` (`src/server/index.js` lines
296-315): batch-delete the documents matching
`userId == uid && sent == false`. -/
def cancelAllScheduledNotifications (userId : String) (st : Store) : Store :=
  st.filter (fun e => !(e.2.userId == userId && e.2.sent == false))

/-- Outcome of one `admin.messaging().send` call; `success` carries the
message id and the server timestamp written into `sentAt`. -/
inductive SendOutcome where
  | success (messageId : String) (sentAt : Nat)
  | failure (code : String) (msg : String)
deriving Repr, DecidableEq

/-- `sendFCMNotification` (`src/server/index.js` lines 318-365): on
success mark the document sent (with `sentAt` and `messageId`); on an
invalid-token failure mark it sent with the error message recorded (note:
no `sentAt`); on any other failure leave the store untouched. -/
def sendFCMNotification (outcome : SendOutcome) (st : Store) (id : String) : Store :=
  match outcome with
  | .success mid t =>
      updateDoc st id (fun d => { d with sent := true, sentAt := some t, messageId := some mid })
  | .failure code msg =>
      if code = "messaging/invalid-registration-token"
          ∨ code = "messaging/registration-token-not-registered" then
        updateDoc st id (fun d => { d with sent := true, error := some msg })
      else st

/-- The documents selected by one dispatch tick
(`src/server/index.js` lines 386-399): query `sent == false` limited to
500, then filter in code for `scheduledFor >= now && scheduledFor <=
now + 60000`. -/
def dueDocs (now : Nat) (st : Store) : Store :=
  ((st.filter (fun e => e.2.sent == false)).take 500).filter
    (fun e => decide (now ≤ e.2.scheduledFor) && decide (e.2.scheduledFor ≤ now + 60000))

/-- One run of the every-minute dispatch cron job
(`src/server/index.js` lines 369-426): attempt delivery of each due
document, `outcome id` giving the push provider's answer for it. -/
def cronTick (now : Nat) (outcome : String → SendOutcome) (st : Store) : Store :=
  (dueDocs now st).foldl (fun acc e => sendFCMNotification (outcome e.1) acc e.1) st

/-- Whether the retention sweep's query matches a document:
`sent == true` and `sentAt < cutoff`; a document with no `sentAt` field
never matches a Firestore range filter on `sentAt`. -/
def sweepMatch (cutoff : Nat) (d : NotificationDoc) : Bool :=
  d.sent && (match d.sentAt with
    | some t => decide (t < cutoff)
    | none => false)

/-- One run of the daily cleanup cron job (`src/server/index.js` lines
429-451): batch-delete up to 500 documents with `sent == true` and
`sentAt` older than 7 days. -/
def cleanupTick (nowMs : Nat) (st : Store) : Store :=
  let cutoff := nowMs - 7 * msPerDay
  let matched := (st.filter (fun e => sweepMatch cutoff e.2)).take 500
  st.filter (fun e => !(decide (e.1 ∈ matched.map Prod.fst)))

/-- Firestore change event types seen by the preference watch loop. -/
inductive ChangeType where
  | added
  | modified
  | removed
deriving Repr, DecidableEq

/-- The preference watch loop's handler
(`src/server/index.js` lines 103-127): on add/modify, cancel the owner's
pending occurrences and regenerate when
`studyRemindersEnabled && fcmToken` is truthy; on remove, cancel only. -/
def handlePreferenceChange (ct : ChangeType) (now : Nat) (userId : String)
    (p : Prefs) (st : Store) : Store :=
  match ct with
  | .added | .modified =>
      let st1 := cancelAllScheduledNotifications userId st
      if p.studyRemindersEnabled && jsTruthyTok p.fcmToken then
        scheduleStudyReminders now userId p st1
      else st1
  | .removed => cancelAllScheduledNotifications userId st

/-!  Generic association-list lemmas about the store operations. -/

def keysOf (st : Store) : List String := st.map Prod.fst

/-!  The scheduler as application of a fixed list of upserts. -/

def applyOps (ops : List (String × NotificationDoc)) (st : Store) : Store :=
  ops.foldl (fun acc op => setDoc acc op.1 op.2) st

/-- Last value written for key `k` by the sequence `ops` (if any). -/
def lastVal : List (String × NotificationDoc) → String → Option NotificationDoc
  | [], _ => none
  | op :: ops, k =>
      match lastVal ops k with
      | some d => some d
      | none => if op.1 = k then some op.2 else none

/-- The upserts performed for one week of the scheduling loop. -/
def weekOps (now : Nat) (userId token : String) (hour minute : Nat) (message : String)
    (days : List Nat) (week : Nat) : List (String × NotificationDoc) :=
  days.filterMap (fun dayOfWeek =>
    let scheduledDate := getNextScheduledDate now dayOfWeek hour minute week
    if scheduledDate ≤ now then none
    else some (notifId userId dayOfWeek week,
               mkDoc userId token scheduledDate hour minute dayOfWeek week message now))

def opsJoin (f : Nat → List (String × NotificationDoc)) :
    List Nat → List (String × NotificationDoc)
  | [] => []
  | w :: ws => f w ++ opsJoin f ws

/-- All upserts performed by one `scheduleStudyReminders` run. -/
def scheduleOps (now : Nat) (userId token : String) (hour minute : Nat)
    (message : String) (days : List Nat) : List (String × NotificationDoc) :=
  opsJoin (weekOps now userId token hour minute message days) (List.range 8)

/-!  Concrete documents and preferences used in concrete instances. -/

/-- A custom-days preference document: Wednesdays at 01:00, token present. -/
def prefsPilot : Prefs :=
  { studyReminderHour := some 1, studyReminderMinute := some 0,
    studyReminderFrequency := some "custom", studyReminderDays := some [3],
    customMessage := none, fcmToken := some "tok",
    studyRemindersEnabled := true, timezoneOffset := some 0 }

/-- The same preferences with the reminder hour set to midnight. -/
def prefsMidnight : Prefs := { prefsPilot with studyReminderHour := some 0 }

/-- A delivered occurrence document (sent, with `sentAt` and `messageId`). -/
def dDocDelivered : NotificationDoc :=
  { userId := "u", fcmToken := "tok", scheduledFor := 0, hour := 1, minute := 0,
    dayOfWeek := 3, week := 0, title := "Study Time! 📚",
    message := "Time to focus on your studies.", type := "study_reminder",
    sent := true, sentAt := some 5, messageId := some "m1", error := none,
    createdAt := 0 }

/-- A delivered occurrence whose `sentAt` lies 8 days before `10 * msPerDay`. -/
def dDocDelivered8 : NotificationDoc :=
  { dDocDelivered with sentAt := some (2 * msPerDay) }

/-- A pending occurrence document scheduled for instant `120000`. -/
def dDocPending : NotificationDoc :=
  { userId := "u", fcmToken := "tok", scheduledFor := 120000, hour := 9, minute := 0,
    dayOfWeek := 3, week := 0, title := "Study Time! 📚",
    message := "Time to focus on your studies.", type := "study_reminder",
    sent := false, sentAt := none, messageId := none, error := none,
    createdAt := 0 }

/-- A failed occurrence: marked sent with an error by the invalid-token
path, hence with no `sentAt`; created 8 days before `10 * msPerDay`. -/
def dDocFailed : NotificationDoc :=
  { userId := "u", fcmToken := "tok", scheduledFor := 200000000, hour := 9, minute := 0,
    dayOfWeek := 3, week := 0, title := "Study Time! 📚",
    message := "Time to focus on your studies.", type := "study_reminder",
    sent := true, sentAt := none, messageId := none,
    error := some "Requested entity was not found.", createdAt := 2 * msPerDay }

/-!  Lemmas and claim theorems. -/

lemma setUTCTime_add_days (t h m k : Nat) :
    setUTCTime (t + k * msPerDay) h m = setUTCTime t h m + k * msPerDay := by
  unfold setUTCTime startOfUTCDay msPerDay
  omega

lemma hourMinute_of_setUTCTime_add (t h m k : Nat) (hh : h < 24) (hm : m < 60) :
    jsUTCHourOf (setUTCTime t h m + k * msPerDay) = h ∧
      jsUTCMinuteOf (setUTCTime t h m + k * msPerDay) = m := by
  unfold jsUTCHourOf jsUTCMinuteOf setUTCTime startOfUTCDay msPerDay msPerHour msPerMinute
  omega

lemma hourMinute_of_setUTCTime (t h m : Nat) (hh : h < 24) (hm : m < 60) :
    jsUTCHourOf (setUTCTime t h m) = h ∧ jsUTCMinuteOf (setUTCTime t h m) = m := by
  have := hourMinute_of_setUTCTime_add t h m 0 hh hm
  simpa using this

/-- Claim C1 amended: the occurrence generator ignores the config's stored
timezone offset.  `src/server/index.js` hard-codes an 8-hour (UTC+8)
conversion, so the emitted instant always carries UTC hour
`(hour − 8 + 24) mod 24` (minute unchanged), and the draft
`src/index.js` applies no conversion at all (host-local hour). -/
theorem C1_hardcoded_offset (now dayOfWeek hour minute weekOffset : Nat)
    (hm : minute < 60) :
    (jsUTCHourOf (getNextScheduledDate now dayOfWeek hour minute weekOffset)
        = (hour + 24 - 8) % 24 ∧
      jsUTCMinuteOf (getNextScheduledDate now dayOfWeek hour minute weekOffset)
        = minute) ∧
    (hour < 24 →
      jsUTCHourOf (getNextScheduledDateRoot now dayOfWeek hour minute weekOffset)
          = hour ∧
        jsUTCMinuteOf (getNextScheduledDateRoot now dayOfWeek hour minute weekOffset)
          = minute) := by
  have hu : (hour + 24 - 8) % 24 < 24 := Nat.mod_lt _ (by norm_num)
  constructor
  · unfold getNextScheduledDate
    dsimp only
    simp only [← setUTCTime_add_days]
    split_ifs
    all_goals exact hourMinute_of_setUTCTime _ _ minute hu hm
  · intro hh
    unfold getNextScheduledDateRoot
    dsimp only
    simp only [← setUTCTime_add_days]
    split_ifs
    all_goals exact hourMinute_of_setUTCTime _ hour minute hh hm

set_option maxRecDepth 100000 in
/-- Claim C1 fails as stated: for a config with stored offset 0 and local
time 00:00 the spec formula yields UTC hour 0, but the server emits the
instant `57600000` (Thursday 16:00 UTC), having applied the hard-coded
UTC+8 conversion to the hour. -/
theorem C1_counterexample :
    getNextScheduledDate 0 4 0 0 0 = 57600000 ∧
      jsUTCHourOf (getNextScheduledDate 0 4 0 0 0) = 16 ∧
      specUtcHour 0 0 = 0 ∧ (16 : Nat) ≠ 0 := by
  refine ⟨by rfl, by rfl, by decide, by decide⟩

/-- Witness for C1's amended theorem at a concrete input. -/
theorem C1_witness :
    jsUTCHourOf (getNextScheduledDate 1000 3 9 30 2) = 1 ∧
      jsUTCMinuteOf (getNextScheduledDate 1000 3 9 30 2) = 30 := by
  have h := (C1_hardcoded_offset 1000 3 9 30 2 (by decide)).1
  exact ⟨by rw [h.1], h.2⟩

lemma lookup_setDoc (st : Store) (id : String) (d : NotificationDoc) (k : String) :
    lookup (setDoc st id d) k = if id = k then some d else lookup st k := by
  induction st with
  | nil => simp [setDoc, lookup]
  | cons e rest ih =>
      by_cases he : e.1 = id
      · simp only [setDoc, if_pos he, lookup]
        by_cases hk : id = k
        · simp [hk]
        · have hek : e.1 ≠ k := fun h => hk (he.symm.trans h)
          simp [hk, hek, lookup]
      · simp only [setDoc, if_neg he, lookup, ih]
        by_cases hk : e.1 = k
        · have hik : id ≠ k := fun h => he (hk.trans h.symm)
          simp [hk, hik]
        · simp [hk]

lemma keysOf_cons (e : String × NotificationDoc) (rest : Store) :
    keysOf (e :: rest) = e.1 :: keysOf rest := rfl

lemma lookup_of_not_mem_keys (st : Store) (k : String) (h : k ∉ keysOf st) :
    lookup st k = none := by
  induction st with
  | nil => rfl
  | cons e rest ih =>
      have h1 : e.1 ≠ k := by
        intro hek
        exact h (by rw [keysOf_cons]; exact hek ▸ List.mem_cons_self _ _)
      have h2 : k ∉ keysOf rest := by
        intro hk
        exact h (by rw [keysOf_cons]; exact List.mem_cons_of_mem _ hk)
      simp only [lookup, if_neg h1]
      exact ih h2

lemma mem_of_lookup_eq_some (st : Store) (k : String) (d : NotificationDoc)
    (h : lookup st k = some d) : (k, d) ∈ st := by
  induction st with
  | nil => simp [lookup] at h
  | cons e rest ih =>
      simp only [lookup] at h
      by_cases he : e.1 = k
      · rw [if_pos he] at h
        obtain ⟨e1, e2⟩ := e
        simp only at he
        subst he
        obtain rfl := Option.some.inj h
        exact List.mem_cons_self _ _
      · rw [if_neg he] at h
        exact List.mem_cons_of_mem _ (ih h)

lemma lookup_of_mem_nodup (st : Store) (k : String) (d : NotificationDoc)
    (hnd : (keysOf st).Nodup) (hmem : (k, d) ∈ st) : lookup st k = some d := by
  induction st with
  | nil => simp at hmem
  | cons e rest ih =>
      simp only [keysOf, List.map_cons, List.nodup_cons] at hnd
      rcases List.mem_cons.mp hmem with h | h
      · obtain rfl := h.symm
        simp [lookup]
      · have hk : k ∈ keysOf rest := List.mem_map_of_mem Prod.fst h
        have he : e.1 ≠ k := fun hek => hnd.1 (hek ▸ hk)
        simp only [lookup, if_neg he]
        exact ih (by simpa [keysOf] using hnd.2) h

lemma keysOf_setDoc (st : Store) (id : String) (d : NotificationDoc) :
    keysOf (setDoc st id d)
      = if id ∈ keysOf st then keysOf st else keysOf st ++ [id] := by
  induction st with
  | nil => simp [setDoc, keysOf]
  | cons e rest ih =>
      by_cases he : e.1 = id
      · simp only [setDoc, if_pos he, keysOf_cons]
        simp [he, List.mem_cons_self]
      · have hmem : id ∈ keysOf (e :: rest) ↔ id ∈ keysOf rest := by
          rw [keysOf_cons]
          exact ⟨fun h => (List.mem_cons.mp h).resolve_left (fun h => he h.symm),
                 fun h => List.mem_cons_of_mem _ h⟩
        simp only [setDoc, if_neg he]
        by_cases hm : id ∈ keysOf rest
        · rw [if_pos (hmem.mpr hm), keysOf_cons, keysOf_cons, ih, if_pos hm]
        · rw [if_neg (fun h => hm (hmem.mp h)), keysOf_cons, keysOf_cons, ih, if_neg hm]
          rfl

lemma nodup_keysOf_setDoc (st : Store) (id : String) (d : NotificationDoc)
    (hnd : (keysOf st).Nodup) : (keysOf (setDoc st id d)).Nodup := by
  rw [keysOf_setDoc]
  by_cases hm : id ∈ keysOf st
  · rwa [if_pos hm]
  · rw [if_neg hm]
    simpa [List.nodup_append] using ⟨hnd, hm⟩

lemma applyOps_cons (op : String × NotificationDoc)
    (ops : List (String × NotificationDoc)) (st : Store) :
    applyOps (op :: ops) st = applyOps ops (setDoc st op.1 op.2) := rfl

lemma applyOps_append (a b : List (String × NotificationDoc)) (st : Store) :
    applyOps (a ++ b) st = applyOps b (applyOps a st) := by
  simp [applyOps, List.foldl_append]

lemma lookup_applyOps (ops : List (String × NotificationDoc)) (st : Store) (k : String) :
    lookup (applyOps ops st) k
      = match lastVal ops k with
        | some d => some d
        | none => lookup st k := by
  induction ops generalizing st with
  | nil => simp [applyOps, lastVal]
  | cons op ops ih =>
      rw [applyOps_cons, ih]
      simp only [lastVal]
      cases hlv : lastVal ops k with
      | some d => simp
      | none =>
          by_cases h : op.1 = k <;> simp [hlv, lookup_setDoc, h]

lemma lookup_applyOps_mem (ops : List (String × NotificationDoc)) (st : Store)
    (k : String) (d : NotificationDoc)
    (h : lookup (applyOps ops st) k = some d) :
    lookup st k = some d ∨ (k, d) ∈ ops := by
  induction ops generalizing st with
  | nil => exact Or.inl (by simpa [applyOps] using h)
  | cons op ops ih =>
      rw [applyOps_cons] at h
      rcases ih (setDoc st op.1 op.2) h with h1 | h1
      · rw [lookup_setDoc] at h1
        by_cases he : op.1 = k
        · rw [if_pos he] at h1
          refine Or.inr ?_
          obtain ⟨o1, o2⟩ := op
          simp only at he
          subst he
          obtain rfl := Option.some.inj h1
          exact List.mem_cons_self _ _
        · rw [if_neg he] at h1
          exact Or.inl h1
      · exact Or.inr (List.mem_cons_of_mem _ h1)

lemma nodup_keysOf_applyOps (ops : List (String × NotificationDoc)) (st : Store)
    (hnd : (keysOf st).Nodup) : (keysOf (applyOps ops st)).Nodup := by
  induction ops generalizing st with
  | nil => simpa [applyOps] using hnd
  | cons op ops ih =>
      rw [applyOps_cons]
      exact ih (setDoc st op.1 op.2) (nodup_keysOf_setDoc st op.1 op.2 hnd)

lemma applyOps_idem_lookup (ops : List (String × NotificationDoc)) (st : Store)
    (k : String) :
    lookup (applyOps ops (applyOps ops st)) k = lookup (applyOps ops st) k := by
  rw [lookup_applyOps, lookup_applyOps]
  cases hlv : lastVal ops k <;> simp [hlv]

lemma foldl_fun_ext {α β : Type _} (f g : β → α → β) (l : List α) (b : β)
    (h : ∀ b a, f b a = g b a) : l.foldl f b = l.foldl g b := by
  induction l generalizing b with
  | nil => rfl
  | cons x xs ih =>
      simp only [List.foldl_cons, h]
      exact ih _

lemma days_foldl_eq (now : Nat) (userId token : String) (hour minute : Nat)
    (message : String) (week : Nat) (days : List Nat) (st : Store) :
    days.foldl (fun st2 dayOfWeek =>
        let scheduledDate := getNextScheduledDate now dayOfWeek hour minute week
        if scheduledDate ≤ now then st2
        else
          setDoc st2 (notifId userId dayOfWeek week)
            (mkDoc userId token scheduledDate hour minute dayOfWeek week message now)) st
      = applyOps (weekOps now userId token hour minute message days week) st := by
  induction days generalizing st with
  | nil => rfl
  | cons day ds ih =>
      simp only [List.foldl_cons, weekOps, List.filterMap_cons]
      by_cases h : getNextScheduledDate now day hour minute week ≤ now
      · rw [if_pos h, if_pos h]
        exact ih st
      · rw [if_neg h, if_neg h, applyOps_cons]
        exact ih _

lemma foldl_weeks_eq (f : Nat → List (String × NotificationDoc)) (ws : List Nat)
    (st : Store) :
    ws.foldl (fun s w => applyOps (f w) s) st = applyOps (opsJoin f ws) st := by
  induction ws generalizing st with
  | nil => rfl
  | cons w ws ih =>
      simp only [List.foldl_cons, opsJoin, applyOps_append]
      exact ih _

lemma scheduleStudyReminders_eq_applyOps (now : Nat) (userId : String) (p : Prefs)
    (token : String) (htok : p.fcmToken = some token) (hne : token ≠ "") (st : Store) :
    scheduleStudyReminders now userId p st
      = applyOps (scheduleOps now userId token (jsOrNat p.studyReminderHour 9)
          (jsOrNat p.studyReminderMinute 0)
          (jsOrStr p.customMessage "Time to focus on your studies.")
          (daysToSchedule (jsOrStr p.studyReminderFrequency "daily")
            (p.studyReminderDays.getD []))) st := by
  unfold scheduleStudyReminders
  rw [htok]
  dsimp only
  rw [if_neg hne]
  unfold scheduleOps
  rw [← foldl_weeks_eq]
  exact foldl_fun_ext _ _ _ _ (fun s w => days_foldl_eq now userId token
    (jsOrNat p.studyReminderHour 9) (jsOrNat p.studyReminderMinute 0)
    (jsOrStr p.customMessage "Time to focus on your studies.") w
    (daysToSchedule (jsOrStr p.studyReminderFrequency "daily")
      (p.studyReminderDays.getD [])) s)

lemma scheduleStudyReminders_no_token (now : Nat) (userId : String) (p : Prefs)
    (st : Store) (h : p.fcmToken = none) :
    scheduleStudyReminders now userId p st = st := by
  unfold scheduleStudyReminders
  rw [h]

lemma scheduleStudyReminders_empty_token (now : Nat) (userId : String) (p : Prefs)
    (st : Store) (h : p.fcmToken = some "") :
    scheduleStudyReminders now userId p st = st := by
  unfold scheduleStudyReminders
  rw [h]
  rfl

lemma mem_opsJoin (f : Nat → List (String × NotificationDoc)) (l : List Nat)
    (x : String × NotificationDoc) (h : x ∈ opsJoin f l) : ∃ w ∈ l, x ∈ f w := by
  induction l with
  | nil => simp [opsJoin] at h
  | cons w ws ih =>
      rcases List.mem_append.mp h with h1 | h1
      · exact ⟨w, List.mem_cons_self _ _, h1⟩
      · obtain ⟨w', hw', hx⟩ := ih h1
        exact ⟨w', List.mem_cons_of_mem _ hw', hx⟩

lemma weekOps_future (now : Nat) (userId token : String) (hour minute : Nat)
    (message : String) (days : List Nat) (week : Nat) (k : String)
    (d : NotificationDoc) (h : (k, d) ∈ weekOps now userId token hour minute message days week) :
    now < d.scheduledFor := by
  unfold weekOps at h
  obtain ⟨day, hday, hsome⟩ := List.mem_filterMap.mp h
  dsimp only at hsome
  by_cases hle : getNextScheduledDate now day hour minute week ≤ now
  · rw [if_pos hle] at hsome
    exact absurd hsome (by simp)
  · rw [if_neg hle] at hsome
    have hd : mkDoc userId token (getNextScheduledDate now day hour minute week)
        hour minute day week message now = d :=
      congrArg Prod.snd (Option.some.inj hsome)
    subst hd
    have hs : (mkDoc userId token (getNextScheduledDate now day hour minute week)
        hour minute day week message now).scheduledFor
        = getNextScheduledDate now day hour minute week := rfl
    omega

lemma scheduleOps_future (now : Nat) (userId token : String) (hour minute : Nat)
    (message : String) (days : List Nat) (k : String) (d : NotificationDoc)
    (h : (k, d) ∈ scheduleOps now userId token hour minute message days) :
    now < d.scheduledFor := by
  obtain ⟨w, _, hx⟩ := mem_opsJoin _ _ _ h
  exact weekOps_future now userId token hour minute message days w k d hx

/-- Claim C2: every occurrence actually persisted by the scheduler carries
a scheduled instant strictly greater than `now`; a candidate `≤ now` is
skipped and never stored (any document found after the run either was
already there or is strictly future). -/
theorem C2_persisted_strictly_future (now : Nat) (userId : String) (p : Prefs)
    (st : Store) (k : String) (d : NotificationDoc)
    (h : lookup (scheduleStudyReminders now userId p st) k = some d) :
    lookup st k = some d ∨ now < d.scheduledFor := by
  cases htok : p.fcmToken with
  | none =>
      rw [scheduleStudyReminders_no_token now userId p st htok] at h
      exact Or.inl h
  | some token =>
      by_cases hne : token = ""
      · subst hne
        rw [scheduleStudyReminders_empty_token now userId p st htok] at h
        exact Or.inl h
      · rw [scheduleStudyReminders_eq_applyOps now userId p token htok hne] at h
        rcases lookup_applyOps_mem _ _ _ _ h with h1 | h1
        · exact Or.inl h1
        · exact Or.inr (scheduleOps_future _ _ _ _ _ _ _ _ _ h1)

/-- Claim C4: regeneration is idempotent — running the schedule step twice
with the same config and `now` leaves every document key bound to the
same document (hence the same `scheduledFor`), and the deterministic key
keeps the key set duplicate-free. -/
theorem C4_regeneration_idempotent (now : Nat) (userId : String) (p : Prefs)
    (st : Store) (hnd : (keysOf st).Nodup) :
    (∀ k, lookup (scheduleStudyReminders now userId p
          (scheduleStudyReminders now userId p st)) k
        = lookup (scheduleStudyReminders now userId p st) k)
    ∧ (keysOf (scheduleStudyReminders now userId p st)).Nodup := by
  cases htok : p.fcmToken with
  | none =>
      rw [scheduleStudyReminders_no_token now userId p st htok,
        scheduleStudyReminders_no_token now userId p st htok]
      exact ⟨fun k => rfl, hnd⟩
  | some token =>
      by_cases hne : token = ""
      · subst hne
        rw [scheduleStudyReminders_empty_token now userId p st htok,
          scheduleStudyReminders_empty_token now userId p st htok]
        exact ⟨fun k => rfl, hnd⟩
      · rw [scheduleStudyReminders_eq_applyOps now userId p token htok hne,
          scheduleStudyReminders_eq_applyOps now userId p token htok hne]
        exact ⟨fun k => applyOps_idem_lookup _ _ k, nodup_keysOf_applyOps _ _ hnd⟩

/-!  Dispatch poller lemmas. -/

lemma lookup_updateDoc (st : Store) (id : String) (f : NotificationDoc → NotificationDoc)
    (k : String) :
    lookup (updateDoc st id f) k
      = if id = k then (lookup st k).map f else lookup st k := by
  induction st with
  | nil => by_cases h : id = k <;> simp [updateDoc, lookup, h]
  | cons e rest ih =>
      simp only [updateDoc, List.map_cons] at ih ⊢
      by_cases he : e.1 = id
      · rw [if_pos he]
        by_cases hk : e.1 = k
        · have hik : id = k := he.symm.trans hk
          simp [lookup, hk, hik]
        · have hik : ¬ (id = k) := fun h => hk (he.symm ▸ h)
          simp [lookup, hk, hik, ih]
      · rw [if_neg he]
        by_cases hk : e.1 = k
        · have hik : ¬ (id = k) := fun h => he (hk ▸ h ▸ rfl)
          simp [lookup, hk, hik]
        · simp [lookup, hk, ih]

lemma lookup_sendFCM_ne (oc : SendOutcome) (st : Store) (id k : String)
    (hne : id ≠ k) :
    lookup (sendFCMNotification oc st id) k = lookup st k := by
  cases oc with
  | success mid t => simp [sendFCMNotification, lookup_updateDoc, hne]
  | failure code msg =>
      by_cases h : code = "messaging/invalid-registration-token"
          ∨ code = "messaging/registration-token-not-registered"
      · simp [sendFCMNotification, if_pos h, lookup_updateDoc, hne]
      · simp [sendFCMNotification, if_neg h]

lemma mem_dueDocs (now : Nat) (st : Store) (e : String × NotificationDoc)
    (h : e ∈ dueDocs now st) :
    e ∈ st ∧ e.2.sent = false ∧ now ≤ e.2.scheduledFor
      ∧ e.2.scheduledFor ≤ now + 60000 := by
  unfold dueDocs at h
  have h1 := List.mem_filter.mp h
  have h2 : e ∈ st.filter (fun e => e.2.sent == false) :=
    List.take_subset 500 _ h1.1
  have h3 := List.mem_filter.mp h2
  refine ⟨h3.1, by simpa using h3.2, ?_, ?_⟩
  · have := (Bool.and_eq_true _ _).mp h1.2
    exact of_decide_eq_true this.1
  · have := (Bool.and_eq_true _ _).mp h1.2
    exact of_decide_eq_true this.2

lemma foldSend_preserve (l : Store) (oc : String → SendOutcome) (st : Store)
    (k : String) (hk : ∀ e ∈ l, e.1 ≠ k) :
    lookup (l.foldl (fun acc e => sendFCMNotification (oc e.1) acc e.1) st) k
      = lookup st k := by
  induction l generalizing st with
  | nil => rfl
  | cons e rest ih =>
      simp only [List.foldl_cons]
      rw [ih _ (fun x hx => hk x (List.mem_cons_of_mem _ hx))]
      exact lookup_sendFCM_ne _ _ _ _ (hk e (List.mem_cons_self _ _))

lemma cronTick_preserves_sent (now : Nat) (oc : String → SendOutcome) (st : Store)
    (k : String) (d : NotificationDoc) (hnd : (keysOf st).Nodup)
    (hlk : lookup st k = some d) (hsent : d.sent = true) :
    lookup (cronTick now oc st) k = some d := by
  unfold cronTick
  rw [foldSend_preserve]
  · exact hlk
  · intro e he hek
    have hm := mem_dueDocs now st e he
    have hmem : (k, e.2) ∈ st := by
      rw [← hek]
      simpa using hm.1
    have hlk2 := lookup_of_mem_nodup st k e.2 hnd hmem
    have hde : d = e.2 := Option.some.inj (hlk.symm.trans hlk2)
    rw [← hde] at hm
    rw [hsent] at hm
    exact absurd hm.2.1 (by simp)

/-!  Store filtering lemmas (cancellation and retention sweep). -/

lemma keysOf_filter_subset (p : String × NotificationDoc → Bool) (st : Store)
    (k : String) (h : k ∈ keysOf (st.filter p)) : k ∈ keysOf st := by
  unfold keysOf at h ⊢
  obtain ⟨e, he, rfl⟩ := List.mem_map.mp h
  exact List.mem_map_of_mem _ (List.mem_of_mem_filter he)

lemma lookup_filter (p : String × NotificationDoc → Bool) (st : Store) (k : String)
    (hnd : (keysOf st).Nodup) :
    lookup (st.filter p) k
      = match lookup st k with
        | some d => if p (k, d) then some d else none
        | none => none := by
  induction st with
  | nil => simp [lookup]
  | cons e rest ih =>
      have hnd2 := List.nodup_cons.mp (by rwa [keysOf_cons] at hnd)
      simp only [List.filter_cons]
      by_cases hk : e.1 = k
      · subst hk
        by_cases hp : p e
        · simp only [if_pos hp, lookup, eq_self_iff_true, if_true, Prod.mk.eta, hp]
        · simp only [if_neg hp, lookup, eq_self_iff_true, if_true, Prod.mk.eta]
          apply lookup_of_not_mem_keys
          intro hmem
          exact hnd2.1 (keysOf_filter_subset p rest e.1 hmem)
      · by_cases hp : p e
        · simp only [if_pos hp, lookup, if_neg hk]
          exact ih hnd2.2
        · simp only [if_neg hp, lookup, if_neg hk]
          exact ih hnd2.2

lemma lookup_cancelAll (userId : String) (st : Store) (k : String)
    (d : NotificationDoc) (hnd : (keysOf st).Nodup) (hlk : lookup st k = some d) :
    lookup (cancelAllScheduledNotifications userId st) k
      = if d.userId == userId && d.sent == false then none else some d := by
  unfold cancelAllScheduledNotifications
  rw [lookup_filter _ st k hnd, hlk]
  dsimp only
  cases hb : (d.userId == userId && d.sent == false) <;> rfl

lemma mem_keysOf_filter_iff (q : String × NotificationDoc → Bool) (st : Store)
    (k : String) (d : NotificationDoc) (hnd : (keysOf st).Nodup)
    (hlk : lookup st k = some d) :
    k ∈ keysOf (st.filter q) ↔ q (k, d) = true := by
  constructor
  · intro h
    obtain ⟨e, he, hke⟩ := List.mem_map.mp h
    have he2 := List.mem_filter.mp he
    have hmem : (k, e.2) ∈ st := by
      rw [← hke]
      simpa using he2.1
    have hlk2 := lookup_of_mem_nodup st k e.2 hnd hmem
    have hde : d = e.2 := Option.some.inj (hlk.symm.trans hlk2)
    rw [hde]
    have : (k, e.2) = e := by
      rw [← hke]
    rw [this]
    exact he2.2
  · intro h
    have hmem : (k, d) ∈ st := mem_of_lookup_eq_some st k d hlk
    have : (k, d) ∈ st.filter q := List.mem_filter.mpr ⟨hmem, h⟩
    exact List.mem_map_of_mem Prod.fst this

lemma cleanupTick_lookup (nowMs : Nat) (st : Store) (k : String) (d : NotificationDoc)
    (hnd : (keysOf st).Nodup)
    (hlen : (st.filter (fun e => sweepMatch (nowMs - 7 * msPerDay) e.2)).length ≤ 500)
    (hlk : lookup st k = some d) :
    lookup (cleanupTick nowMs st) k
      = if sweepMatch (nowMs - 7 * msPerDay) d then none else some d := by
  unfold cleanupTick
  dsimp only
  rw [List.take_of_length_le hlen]
  rw [lookup_filter _ st k hnd, hlk]
  dsimp only
  have hmem : decide (k ∈ (st.filter (fun e =>
      sweepMatch (nowMs - 7 * msPerDay) e.2)).map Prod.fst)
      = sweepMatch (nowMs - 7 * msPerDay) d := by
    cases hq : sweepMatch (nowMs - 7 * msPerDay) d with
    | true =>
        apply decide_eq_true
        exact (mem_keysOf_filter_iff _ st k d hnd hlk).mpr hq
    | false =>
        apply decide_eq_false
        intro hin
        have := (mem_keysOf_filter_iff _ st k d hnd hlk).mp hin
        rw [hq] at this
        exact Bool.false_ne_true this
  rw [hmem]
  cases hq : sweepMatch (nowMs - 7 * msPerDay) d <;> rfl

lemma cleanupTick_keeps_unsent (nowMs : Nat) (st : Store) (k : String)
    (d : NotificationDoc) (hnd : (keysOf st).Nodup)
    (hlk : lookup st k = some d) (hsent : d.sent = false) :
    lookup (cleanupTick nowMs st) k = some d := by
  unfold cleanupTick
  dsimp only
  rw [lookup_filter _ st k hnd, hlk]
  dsimp only
  have hq : sweepMatch (nowMs - 7 * msPerDay) d = false := by
    unfold sweepMatch
    rw [hsent]
    rfl
  have hnotin : ¬ k ∈ (List.take 500 (st.filter (fun e =>
      sweepMatch (nowMs - 7 * msPerDay) e.2))).map Prod.fst := by
    intro hin
    obtain ⟨e, he, hke⟩ := List.mem_map.mp hin
    have he2 := List.mem_filter.mp (List.take_subset 500 _ he)
    have hmem : (k, e.2) ∈ st := by
      rw [← hke]
      simpa using he2.1
    have hlk2 := lookup_of_mem_nodup st k e.2 hnd hmem
    have hde : d = e.2 := Option.some.inj (hlk.symm.trans hlk2)
    rw [← hde] at he2
    rw [hq] at he2
    exact Bool.false_ne_true he2.2
  rw [decide_eq_false hnotin]
  rfl

set_option maxRecDepth 100000 in
/-- Witness for C2's theorem at a concrete input: scheduling with
`prefsPilot` at `now = 1` stores the Wednesday week-0 occurrence at
instant `579600000`, and the theorem's disjunction holds for it. -/
theorem C2_witness :
    lookup ([] : Store) "study_u_3_0"
        = some (mkDoc "u" "tok" 579600000 1 0 3 0 "Time to focus on your studies." 1)
      ∨ 1 < (mkDoc "u" "tok" 579600000 1 0 3 0 "Time to focus on your studies." 1).scheduledFor :=
  C2_persisted_strictly_future 1 "u" prefsPilot [] "study_u_3_0"
    (mkDoc "u" "tok" 579600000 1 0 3 0 "Time to focus on your studies." 1) (by rfl)

set_option maxRecDepth 100000 in
/-- Witness for C4's theorem at a concrete input. -/
theorem C4_witness :
    lookup (scheduleStudyReminders 1 "u" prefsPilot
          (scheduleStudyReminders 1 "u" prefsPilot [])) "study_u_3_0"
        = lookup (scheduleStudyReminders 1 "u" prefsPilot []) "study_u_3_0"
      ∧ (keysOf (scheduleStudyReminders 1 "u" prefsPilot [])).Nodup :=
  ⟨(C4_regeneration_idempotent 1 "u" prefsPilot [] (by decide)).1 "study_u_3_0",
   (C4_regeneration_idempotent 1 "u" prefsPilot [] (by decide)).2⟩

/-- Claim C3 amended: the dispatch poller selects only unsent documents
and never touches a delivered one, so a delivered occurrence is never
re-sent by a poll; however `scheduleStudyReminders` overwrites the
deterministic key with a fresh `sent = false` document, so regeneration
can replace a delivered record with a pending one under the same key
(see the counterexample). -/
theorem C3_delivered_not_redispatched (now : Nat) (oc : String → SendOutcome)
    (st : Store) (k : String) (d : NotificationDoc) (hnd : (keysOf st).Nodup)
    (hlk : lookup st k = some d) (hsent : d.sent = true) :
    (∀ e ∈ dueDocs now st, e.2.sent = false)
    ∧ lookup (cronTick now oc st) k = some d :=
  ⟨fun e he => (mem_dueDocs now st e he).2.1,
   cronTick_preserves_sent now oc st k d hnd hlk hsent⟩

set_option maxRecDepth 100000 in
/-- Claim C3 fails as stated: a delivered document (`sent = true`) under
key `study_u_3_0` is overwritten by a later `scheduleStudyReminders` run
with a fresh pending document (`sent = false`) under the same key — a
write of the `sent` flag that sets it to `false`. -/
theorem C3_counterexample :
    (lookup [("study_u_3_0", dDocDelivered)] "study_u_3_0").map NotificationDoc.sent
        = some true
    ∧ (lookup (scheduleStudyReminders 1 "u" prefsPilot
          [("study_u_3_0", dDocDelivered)]) "study_u_3_0").map NotificationDoc.sent
        = some false :=
  ⟨rfl, rfl⟩

set_option maxRecDepth 100000 in
/-- Witness for C3's amended theorem at a concrete input. -/
theorem C3_witness :
    (∀ e ∈ dueDocs 10 [("study_u_3_0", dDocDelivered)], e.2.sent = false)
    ∧ lookup (cronTick 10 (fun _ => SendOutcome.failure "transient" "boom")
        [("study_u_3_0", dDocDelivered)]) "study_u_3_0" = some dDocDelivered :=
  C3_delivered_not_redispatched 10 (fun _ => SendOutcome.failure "transient" "boom")
    [("study_u_3_0", dDocDelivered)] "study_u_3_0" dDocDelivered (by decide) rfl rfl

/-- Claim C5 amended: a failed delivery attempt whose error code marks
the token permanently invalid immediately marks the document terminal
(`sent = true`) with the error recorded, and terminal documents are never
selected by a later poll (the poller selects only unsent documents); any
other failure leaves the store — hence the document's pending state —
completely unchanged, but a later tick retries it only while its instant
still lies in that tick's `[now, now + 60s]` window: once the instant has
passed a tick's `now`, the unchanged pending document is never selected
again (see the counterexample). -/
theorem C5_failure_paths (st : Store) (id : String) (d : NotificationDoc)
    (code msg : String) (hlk : lookup st id = some d) :
    (code = "messaging/invalid-registration-token"
        ∨ code = "messaging/registration-token-not-registered" →
      lookup (sendFCMNotification (SendOutcome.failure code msg) st id) id
        = some { d with sent := true, error := some msg })
    ∧ (¬ (code = "messaging/invalid-registration-token"
          ∨ code = "messaging/registration-token-not-registered") →
        sendFCMNotification (SendOutcome.failure code msg) st id = st)
    ∧ (∀ now2 st2 e, e ∈ dueDocs now2 st2 → e.2.sent = false)
    ∧ (∀ now2, d.scheduledFor < now2 → (id, d) ∉ dueDocs now2 st) := by
  refine ⟨?_, ?_, fun now2 st2 e he => (mem_dueDocs now2 st2 e he).2.1, ?_⟩
  · intro h
    simp only [sendFCMNotification]
    rw [if_pos h, lookup_updateDoc, if_pos rfl, hlk]
    rfl
  · intro h
    simp only [sendFCMNotification]
    rw [if_neg h]
  · intro now2 hlt hmem
    have hwin : now2 ≤ d.scheduledFor := (mem_dueDocs now2 st (id, d) hmem).2.2.1
    omega

set_option maxRecDepth 100000 in
/-- Claim C5 fails as stated: the pending occurrence at instant `120000`
is due in the window of the tick at `now = 100000`; a transient failure
there leaves the store unchanged, yet the next tick at `now = 160000`
selects nothing — the `scheduledFor >= now` filter never retries the
now-past-due document, refuting "the next poll tick retries it". -/
theorem C5_counterexample :
    dueDocs 100000 [("study_u_3_0", dDocPending)] = [("study_u_3_0", dDocPending)]
    ∧ cronTick 100000 (fun _ => SendOutcome.failure "messaging/internal-error" "try later")
        [("study_u_3_0", dDocPending)] = [("study_u_3_0", dDocPending)]
    ∧ dueDocs 160000 [("study_u_3_0", dDocPending)] = [] :=
  ⟨rfl, rfl, rfl⟩

/-- Witness for C5's amended theorem at a concrete input. -/
theorem C5_witness :
    lookup (sendFCMNotification
        (SendOutcome.failure "messaging/invalid-registration-token" "gone")
        [("study_u_3_0", dDocPending)] "study_u_3_0") "study_u_3_0"
      = some { dDocPending with sent := true, error := some "gone" } :=
  (C5_failure_paths [("study_u_3_0", dDocPending)] "study_u_3_0" dDocPending
    "messaging/invalid-registration-token" "gone" rfl).1 (Or.inl rfl)

/-- Claim C6 amended: the bulk cancellation used on disable, reconfigure
and removal deletes only the owner's *unsent* occurrences
(`userId == uid && sent == false`); delivered or failed documents
(`sent = true`) survive it. -/
theorem C6_cancel_only_unsent (userId : String) (st : Store) (k : String)
    (d : NotificationDoc) (hnd : (keysOf st).Nodup) (hlk : lookup st k = some d) :
    lookup (cancelAllScheduledNotifications userId st) k
      = if d.userId == userId && d.sent == false then none else some d :=
  lookup_cancelAll userId st k d hnd hlk

/-- Claim C6 fails as stated: the owner's delivered occurrence survives
both the cancellation call and the removal event of the watch loop. -/
theorem C6_counterexample :
    dDocDelivered.userId = "u" ∧ dDocDelivered.sent = true
    ∧ cancelAllScheduledNotifications "u" [("study_u_3_0", dDocDelivered)]
        = [("study_u_3_0", dDocDelivered)]
    ∧ handlePreferenceChange ChangeType.removed 0 "u" prefsPilot
        [("study_u_3_0", dDocDelivered)] = [("study_u_3_0", dDocDelivered)] :=
  ⟨rfl, rfl, rfl, rfl⟩

/-- Witness for C6's amended theorem at a concrete input. -/
theorem C6_witness :
    lookup (cancelAllScheduledNotifications "u" [("study_u_3_0", dDocPending)])
        "study_u_3_0"
      = if dDocPending.userId == "u" && dDocPending.sent == false then none
        else some dDocPending :=
  C6_cancel_only_unsent "u" [("study_u_3_0", dDocPending)] "study_u_3_0"
    dDocPending (by decide) rfl

/-- Claim C7 amended: the daily sweep deletes exactly the documents with
`sent = true` whose `sentAt` field exists and is older than the 7-day
cutoff (when at most 500 match): a delivered occurrence `sentAt` 8 days
old is removed and one 6 days old is retained; but a Failed occurrence is
marked `sent` without any `sentAt`, never matches the query, and is never
purged. -/
theorem C7_sweep_deletes_old_sentAt (nowMs : Nat) (st : Store) (k : String)
    (d : NotificationDoc) (hnd : (keysOf st).Nodup)
    (hlen : (st.filter (fun e => sweepMatch (nowMs - 7 * msPerDay) e.2)).length ≤ 500)
    (hlk : lookup st k = some d) :
    lookup (cleanupTick nowMs st) k
      = if sweepMatch (nowMs - 7 * msPerDay) d then none else some d :=
  cleanupTick_lookup nowMs st k d hnd hlen hlk

set_option maxRecDepth 100000 in
/-- Claim C7 fails as stated: a Failed occurrence (marked `sent` with an
error by the invalid-token path, hence without `sentAt`) whose creation
time is 8 days in the past is not deleted by the sweep. -/
theorem C7_counterexample :
    dDocFailed.sent = true ∧ dDocFailed.error = some "Requested entity was not found."
    ∧ dDocFailed.sentAt = none
    ∧ dDocFailed.createdAt + 8 * msPerDay ≤ 10 * msPerDay
    ∧ cleanupTick (10 * msPerDay) [("study_u_3_0", dDocFailed)]
        = [("study_u_3_0", dDocFailed)] :=
  ⟨rfl, rfl, rfl, by decide, by rfl⟩

set_option maxRecDepth 100000 in
/-- Witness for C7's amended theorem: a delivered occurrence with
`sentAt` 8 days old is swept away. -/
theorem C7_witness :
    lookup (cleanupTick (10 * msPerDay) [("k1", dDocDelivered8)]) "k1"
      = if sweepMatch (10 * msPerDay - 7 * msPerDay) dDocDelivered8 then none
        else some dDocDelivered8 :=
  C7_sweep_deletes_old_sentAt (10 * msPerDay) [("k1", dDocDelivered8)] "k1"
    dDocDelivered8 (by decide) (by decide) rfl

/-- Claim C8 amended: a dispatch tick attempts only the pending documents
whose instant lies in `[now, now + 60000]`; a pending occurrence whose
instant precedes every remaining tick is never selected again and the
retention sweep never deletes an unsent document, so it is stranded
unless the owner-scoped cancellation removes it. -/
theorem C8_pastdue_pending_stranded (now : Nat) (st : Store) (k : String)
    (d : NotificationDoc) (hnd : (keysOf st).Nodup) (hlk : lookup st k = some d) :
    (∀ e ∈ dueDocs now st,
        e.2.sent = false ∧ now ≤ e.2.scheduledFor ∧ e.2.scheduledFor ≤ now + 60000)
    ∧ (d.sent = false → lookup (cleanupTick now st) k = some d)
    ∧ (d.sent = false →
        lookup (cancelAllScheduledNotifications d.userId st) k = none) := by
  refine ⟨fun e he => (mem_dueDocs now st e he).2, ?_, ?_⟩
  · intro hsent
    exact cleanupTick_keeps_unsent now st k d hnd hlk hsent
  · intro hsent
    rw [lookup_cancelAll d.userId st k d hnd hlk, hsent]
    simp

/-- Claim C8 fails as stated: the pending occurrence at instant `120000`
is selected by no tick whose `now` is past its instant, and no retention
sweep ever removes it — it is stranded undelivered and unpurged. -/
theorem C8_counterexample :
    dDocPending.sent = false
    ∧ (∀ now : Nat, dDocPending.scheduledFor < now →
        dueDocs now [("study_u_3_0", dDocPending)] = [])
    ∧ (∀ now : Nat, cleanupTick now [("study_u_3_0", dDocPending)]
        = [("study_u_3_0", dDocPending)]) := by
  refine ⟨rfl, ?_, ?_⟩
  · intro now h
    have h2 : (120000 : Nat) < now := h
    have hle : ¬ (now ≤ 120000) := by omega
    simp [dueDocs, dDocPending, hle]
  · intro now
    simp [cleanupTick, sweepMatch, dDocPending]

/-- Witness for C8's amended theorem at a concrete input. -/
theorem C8_witness :
    (∀ e ∈ dueDocs 200000 [("study_u_3_0", dDocPending)],
        e.2.sent = false ∧ 200000 ≤ e.2.scheduledFor
          ∧ e.2.scheduledFor ≤ 200000 + 60000)
    ∧ (dDocPending.sent = false →
        lookup (cleanupTick 200000 [("study_u_3_0", dDocPending)]) "study_u_3_0"
          = some dDocPending)
    ∧ (dDocPending.sent = false →
        lookup (cancelAllScheduledNotifications dDocPending.userId
          [("study_u_3_0", dDocPending)]) "study_u_3_0" = none) :=
  C8_pastdue_pending_stranded 200000 [("study_u_3_0", dDocPending)] "study_u_3_0"
    dDocPending (by decide) rfl

/-- Claim C9: the acceptance comparison against `now` is strict in both
implementations — when the candidate instant for weekIndex 0 on the
current weekday is exactly `now`, the occurrence is scheduled for the
following week; in particular, for `now` = Wednesday 1970-01-07 00:00 UTC
with `hour = 0`, `minute = 0`, `days = {3}` the draft resolver (which
applies no timezone shift) yields next Wednesday, not today. -/
theorem C9_strict_now_comparison (now dayOfWeek hour minute : Nat)
    (hday : (if jsGetUTCDay now = 0 then 7 else jsGetUTCDay now) = dayOfWeek) :
    (setUTCTime now ((hour + 24 - 8) % 24) minute = now →
      getNextScheduledDate now dayOfWeek hour minute 0 = now + 7 * msPerDay)
    ∧ (setUTCTime now hour minute = now →
      getNextScheduledDateRoot now dayOfWeek hour minute 0 = now + 7 * msPerDay)
    ∧ getNextScheduledDateRoot 518400000 3 0 0 0 = 518400000 + 7 * msPerDay := by
  refine ⟨?_, ?_, by rfl⟩
  · intro hc
    unfold getNextScheduledDate
    dsimp only
    rw [if_pos hday, hc, if_neg (lt_irrefl now)]
  · intro hc
    unfold getNextScheduledDateRoot
    dsimp only
    rw [if_pos hday, hc, if_neg (lt_irrefl now)]
    have h7 : (7 + 0 * 7) * msPerDay = 7 * msPerDay := by norm_num
    rw [h7, setUTCTime_add_days, hc]

/-- Witness for C9's theorem at a concrete input: `now` = Wednesday
1970-01-07 00:00 UTC, local hour 8 (which the server converts to UTC hour
0, making the candidate exactly `now`). -/
theorem C9_witness :
    getNextScheduledDate 518400000 3 8 0 0 = 518400000 + 7 * msPerDay :=
  (C9_strict_now_comparison 518400000 3 8 0 (by rfl)).1 (by rfl)

/-- Claim C10: config defaulting uses the JS falsy `||`, so a stored
`studyReminderHour` of `0` (midnight) is replaced by the default hour 9
before occurrence generation — the whole scheduling run behaves exactly
as if the user had configured hour 9. -/
theorem C10_midnight_hour_defaults_to_nine (now : Nat) (userId : String)
    (p : Prefs) (st : Store) (h : p.studyReminderHour = some 0) :
    jsOrNat p.studyReminderHour 9 = 9
    ∧ scheduleStudyReminders now userId p st
      = scheduleStudyReminders now userId
          { p with studyReminderHour := some 9 } st := by
  constructor
  · rw [h]
    rfl
  · unfold scheduleStudyReminders
    rw [h]
    rfl

/-- Witness for C10's theorem at a concrete input. -/
theorem C10_witness :
    jsOrNat prefsMidnight.studyReminderHour 9 = 9
    ∧ scheduleStudyReminders 1 "u" prefsMidnight []
      = scheduleStudyReminders 1 "u"
          { prefsMidnight with studyReminderHour := some 9 } [] :=
  C10_midnight_hour_defaults_to_nine 1 "u" prefsMidnight [] rfl
